import Mathlib

/- Verification of the `remote` package of freehold-sync (src/remote/remote.go).

   The package implements the remote side of a file-synchronization engine:
   a `File` entity wrapping an optional remote handle (`fh.File` from the
   freehold client library), plus a process-wide watch registry with
   recursive monitor start/stop over directory trees.

   Embedding conventions:
   * `fh.File` handles form a rose tree (`Handle`): a handle carries its
     metadata fields together with the outcome its `Children()` boundary
     call would produce (`childrenRes = some e` models a failing
     enumeration, `none` a successful one returning `children`).
   * Go `time.Time` is modelled at wall-clock-second granularity
     (`GoTime`), the granularity used by `time.Stamp` and the claims.
   * Boundary calls whose outcome is independent of the entity
     (delete / upload / move / close / the delete-tracking store) are
     passed to each operation as explicit result parameters.
   * The global mutable watch registry (`watching`) and the change
     dispatcher (`changeHandler`) are implemented outside src/; they are
     modelled from the spec (see the doc comments at their definitions),
     and mutation is made explicit by threading the registry value.
   * The shared `*fh.Client` reference stored in the Go struct is not a
     field of the embedded record; the two client operations the claims
     need (`GetFile`, `RootURL`) are passed explicitly via `Client`.
   * Strings are handled at character granularity (`List Char`), the
     shallow counterpart of Go's byte-level path functions (all inputs in
     the claims are ASCII, where the two coincide).
-/

/-- Go `time.Time` restricted to the wall-clock fields rendered by
`time.Stamp` ("Jan _2 15:04:05"): month, day, hour, minute, second. -/
structure GoTime where
  month : Nat
  day : Nat
  hour : Nat
  min : Nat
  sec : Nat
  deriving DecidableEq, Repr

/-- The Go zero value `time.Time{}` (January 1, 00:00:00). -/
def timeZero : GoTime := ⟨1, 1, 0, 0, 0⟩

/-- Go `path/filepath.Base` (unix separator): empty path gives ".";
trailing slashes are stripped; the last element is returned; an
all-slash path gives "/". -/
def filepathBase (path : String) : String :=
  if path = "" then "."
  else
    let rev := path.data.reverse.dropWhile (fun c => c == '/')
    let last := rev.takeWhile (fun c => c != '/')
    if last.isEmpty then "/" else String.mk last.reverse

/-- Scanning loop of Go `path/filepath.Ext`: walk the path backwards; stop
at a separator with ""; at the first '.' return the suffix from there.
`acc` holds the characters already passed, in original order. -/
def extLoop : List Char → List Char → String
  | [], _ => ""
  | c :: rest, acc =>
    if c == '/' then ""
    else if c == '.' then String.mk (c :: acc)
    else extLoop rest (c :: acc)

/-- Go `path/filepath.Ext`: the suffix beginning at the final dot in the
final element of the path; empty if there is none. -/
def filepathExt (path : String) : String := extLoop path.data.reverse []

/-- Go `strings.TrimSuffix(s, suffix)`: `s` without the provided trailing
suffix string; unchanged if `s` doesn't end in `suffix`. -/
def trimSuffix (s suffix : String) : String :=
  if suffix.data.isSuffixOf s.data then
    String.mk (s.data.take (s.data.length - suffix.data.length))
  else s

/-- Go `time.Month.String` abbreviated: the three-letter month name
rendered by the `Jan` verb of `time.Stamp`. -/
def monthAbbrev (m : Nat) : String :=
  ["Jan", "Feb", "Mar", "Apr", "May", "Jun",
   "Jul", "Aug", "Sep", "Oct", "Nov", "Dec"].getD (m - 1) "???"

/-- Zero-padded two-digit rendering (the `15`, `04`, `05` verbs). -/
def padZero2 (n : Nat) : String :=
  if n < 10 then "0" ++ toString n else toString n

/-- Space-padded two-digit rendering (the `_2` verb). -/
def padSpace2 (n : Nat) : String :=
  if n < 10 then " " ++ toString n else toString n

/-- Go `t.Format(time.Stamp)` with reference layout "Jan _2 15:04:05". -/
def stampFmt (t : GoTime) : String :=
  monthAbbrev t.month ++ " " ++ padSpace2 t.day ++ " " ++
    padZero2 t.hour ++ ":" ++ padZero2 t.min ++ ":" ++ padZero2 t.sec

/-- A remote handle (`fh.File` of the freehold client): metadata fields
plus the outcome of its `Children()` boundary call. `childrenRes = some e`
means enumeration fails with error `e`; `none` means it succeeds and
returns `children`. -/
inductive Handle : Type where
  | mk (name url fullURL : String) (size : Int) (isDir : Bool) (modTime : GoTime)
       (childrenRes : Option String) (children : List Handle)

def Handle.name : Handle → String
  | .mk n _ _ _ _ _ _ _ => n

def Handle.url : Handle → String
  | .mk _ u _ _ _ _ _ _ => u

def Handle.fullURL : Handle → String
  | .mk _ _ fu _ _ _ _ _ => fu

def Handle.size : Handle → Int
  | .mk _ _ _ sz _ _ _ _ => sz

def Handle.isDir : Handle → Bool
  | .mk _ _ _ _ d _ _ _ => d

def Handle.modTime : Handle → GoTime
  | .mk _ _ _ _ _ t _ _ => t

def Handle.childrenRes : Handle → Option String
  | .mk _ _ _ _ _ _ cr _ => cr

def Handle.children : Handle → List Handle
  | .mk _ _ _ _ _ _ _ cs => cs

/-- `fh.File.Move(newName)` success effect on the handle. Modelled from
the spec (§4.6): "the entity's in-memory url is expected to be refreshed
by the boundary's move operation" — on success the handle's `URL` becomes
the move target. -/
def Handle.setUrl : Handle → String → Handle
  | .mk n _ fu sz d t cr cs, u => .mk n u fu sz d t cr cs

/-- The `File` struct of src/remote/remote.go: an optional attached remote
handle plus the copied metadata fields and the `deleted`/`exists` flags. -/
structure RFile where
  file : Option Handle
  Name : String
  URL : String
  FullURL : String
  ModifiedTime : GoTime
  deleted : Bool
  «exists» : Bool

/-- `newFromFile(client, file)`: wraps a live handle; copies name, url,
full URL and modification time from it, sets `exists = true`,
`deleted = false`. (The shared client reference is not stored, see the
header comment.) -/
def newFromFile (h : Handle) : RFile :=
  { «exists» := true
    deleted := false
    Name := h.name
    URL := h.url
    FullURL := h.fullURL
    ModifiedTime := h.modTime
    file := some h }

/-- The outcome of a `client.GetFile(path)` boundary call:
not-found (`fh.IsNotFound(err)`), some other error, or a fetched handle. -/
inductive GetFileResult : Type where
  | notFound
  | err (e : String)
  | found (h : Handle)

/-- The two `*fh.Client` operations used by `New`. `rootWithPath p` models
`uri := client.RootURL(); uri.Path = p; uri.String()` — the client's root
locator with its path replaced by `p`. -/
structure Client where
  rootWithPath : String → String
  getFile : String → GetFileResult

/-- `newEmptyFile(client, filePath)`: the placeholder for a path with no
remote backing: `exists = false`, no handle, name/url/fullURL synthesized
from the path and the client's root locator. (`deleted` and
`ModifiedTime` are the Go zero values of their fields.) -/
def newEmptyFile (c : Client) (filePath : String) : RFile :=
  { «exists» := false
    deleted := false
    Name := filepathBase filePath
    URL := filePath
    FullURL := c.rootWithPath filePath
    ModifiedTime := timeZero
    file := none }

/-- `New(client, filePath)`: nil client is an error; a not-found path
yields the placeholder with no error; any other boundary error
propagates; a fetched handle yields a live entity. -/
def New (client : Option Client) (filePath : String) : Except String RFile :=
  match client with
  | none => .error "Can't retrieve a file with a nil client"
  | some c =>
    let f := newEmptyFile c filePath
    match c.getFile filePath with
    | .notFound => .ok f
    | .err e => .error e
    | .found file => .ok (newFromFile file)

/-- `File.ID()`: the full URL of the file. -/
def RFile.ID (f : RFile) : String := f.FullURL

/-- `File.IsDir()`: false without a remote backing, else the handle's
directory flag. (A nil handle with `exists = true` would crash in Go and
cannot arise: every constructor that sets `exists` attaches a handle.) -/
def RFile.IsDir (f : RFile) : Bool :=
  if !f.«exists» then false
  else
    match f.file with
    | some h => h.isDir
    | none => false

/-- `File.Exists()`. -/
def RFile.Exists (f : RFile) : Bool := f.«exists»

/-- `File.Deleted()`. -/
def RFile.Deleted (f : RFile) : Bool := f.deleted

/-- `File.Size()`: 0 without a remote backing, else the handle's size. -/
def RFile.Size (f : RFile) : Int :=
  if !f.«exists» then 0
  else
    match f.file with
    | some h => h.size
    | none => 0

/-- `File.Modified()`: the stored modification time for an existing
non-directory, the zero time otherwise. -/
def RFile.Modified (f : RFile) : GoTime :=
  if !f.IsDir && f.«exists» then f.ModifiedTime else timeZero

/-- `File.Children()`: empty result (not an error) without a remote
backing; else the handle's enumeration outcome, each child handle wrapped
live via `newFromFile`. -/
def RFile.Children (f : RFile) : Except String (List RFile) :=
  if !f.«exists» then .ok []
  else
    match f.file with
    | none => .ok []
    | some h =>
      match h.childrenRes with
      | some e => .error e
      | none => .ok (h.children.map newFromFile)

/-- Profile identity used to key the watch registry; `none` models the
nil `*syncer.Profile` that `File.Delete` passes to the recursive
unwatcher. -/
abbrev ProfileId := Option String

/-- The watch registry value: the set of (profile, entity-id) pairs
currently watched. Modelled from the spec: the `watching` global and its
methods live outside src/; §3 "WatchRegistry — process-wide state, keyed
by (profile-identity, entity-identity) pair, value-less (presence = is
being watched)". -/
abbrev Reg := List (ProfileId × String)

/-- Modelled from the spec: `watching.has(p, f)` — membership of the
(profile, entity-id) key. -/
def hasW (reg : Reg) (p : ProfileId) (id : String) : Bool :=
  reg.contains (p, id)

/-- Modelled from the spec: `watching.add(p, f)` — set insertion of the
(profile, entity-id) key. -/
def addW (reg : Reg) (p : ProfileId) (id : String) : Reg :=
  if hasW reg p id then reg else (p, id) :: reg

/-- Modelled from the spec: `watching.remove(p, f)` — removal of the
(profile, entity-id) key. -/
def removeW (reg : Reg) (p : ProfileId) (id : String) : Reg :=
  reg.filter (fun e => !(e == (p, id)))

/-- Events dispatched to `changeHandler`. Modelled from the spec: the
change dispatcher lives outside src/ (§2 "Change Dispatcher (external):
invoked once per discovered/changed child when monitoring starts"); an
event is recorded as the identity of the child it is dispatched for. -/
abbrev Events := List String

/-- `File.StartMonitor(p)`: error on a non-directory; no-op when already
watched; otherwise enumerate children (propagating a failure), dispatch a
change event per child, then register. Output: (returned error, registry
after, events dispatched, whether the child-enumeration boundary call was
made). -/
def RFile.StartMonitor (f : RFile) (p : ProfileId) (reg : Reg) :
    Option String × Reg × Events × Bool :=
  if !f.IsDir then (some "Can't start monitoring a non-directory", reg, [], false)
  else if hasW reg p f.ID then (none, reg, [], false)
  else
    match f.Children with
    | .error e => (some e, reg, [], true)
    | .ok children => (none, addW reg p f.ID, children.map RFile.ID, true)

mutual
/-- `File.stopWatcherRecursive(p)` on a live child entity, expressed on
its handle: `newFromFile` wraps each child handle with `exists = true`,
`ID = fullURL` and the handle's own directory flag and children, so the
recursion over wrapped children is exactly this recursion over handles.
Output: (returned error, registry after). -/
def stopHandle (p : ProfileId) (h : Handle) (reg : Reg) : Option String × Reg :=
  match h with
  | .mk _ _ fu _ _ _ cr cs =>
    match cr with
    | some e => (some e, reg)
    | none =>
      match stopChildren p cs reg with
      | (some e, r) => (some e, r)
      | (none, r) => (none, removeW r p fu)

/-- The `for i := range children` loop of `stopWatcherRecursive`:
recurse into each child that is a directory, stopping at the first
error. -/
def stopChildren (p : ProfileId) (hs : List Handle) (reg : Reg) : Option String × Reg :=
  match hs with
  | [] => (none, reg)
  | c :: cs =>
    if c.isDir then
      match stopHandle p c reg with
      | (some e, r) => (some e, r)
      | (none, r) => stopChildren p cs r
    else stopChildren p cs reg
end

/-- `File.stopWatcherRecursive(p)` on the receiver entity: enumerate
children (a failure returns the error with the registry untouched),
recurse into child directories, then remove the receiver's own
(profile, id) entry. A non-existing receiver has no children to visit
(`Children` returns an empty result), so only its own entry is removed. -/
def RFile.stopWatcherRecursive (f : RFile) (p : ProfileId) (reg : Reg) :
    Option String × Reg :=
  match f.Children with
  | .error e => (some e, reg)
  | .ok _ =>
    match f.file, f.«exists» with
    | some h, true =>
      match stopChildren p h.children reg with
      | (some e, r) => (some e, r)
      | (none, r) => (none, removeW r p f.ID)
    | _, _ => (none, removeW reg p f.ID)

/-- `File.StopMonitor(p)`: error on a non-directory; no-op when not
watched; otherwise the recursive teardown. Output: (returned error,
registry after). -/
def RFile.StopMonitor (f : RFile) (p : ProfileId) (reg : Reg) : Option String × Reg :=
  if !f.IsDir then (some "Can't stop monitoring a non-directory", reg)
  else if !(hasW reg p f.ID) then (none, reg)
  else f.stopWatcherRecursive p reg

/-- `File.Delete()`: no-op success when not existing; then the
delete-tracking store call (`deleteRemoteFileFromDS`, outside src/ —
modelled from the spec §4.5 as an external call whose outcome is the
parameter `dsRes`); for a directory the recursive unwatch with the nil
profile; finally the remote delete, whose outcome `remoteRes` is
returned. No field of the entity is assigned anywhere in the Go body.
Output: (returned error, entity after, registry after). -/
def RFile.Delete (f : RFile) (dsRes : Option String) (reg : Reg)
    (remoteRes : Option String) : Option String × RFile × Reg :=
  if !f.«exists» then (none, f, reg)
  else
    match dsRes with
    | some e => (some e, f, reg)
    | none =>
      if f.IsDir then
        match f.stopWatcherRecursive none reg with
        | (some e, r) => (some e, f, r)
        | (none, r) => (remoteRes, f, r)
      else (remoteRes, f, reg)

/-- The boundary calls `File.Write` can make, in order: the delete of the
old remote object, the upload, and the `Close` of the input reader. -/
inductive WEff : Type where
  | effDelete
  | effUpload
  | effClose
  deriving DecidableEq, Repr

/-- `File.Write(r, size, modTime)`: error on a directory (no calls); for
an existing entity first the delete of the old remote object (a failure
returns that error unchanged); then the upload (`UploadFromReader` with
the destination computed from the entity's URL — its outcome is the
parameter `uploadRes`); on upload success the entity adopts the new
handle, sets `exists = true`, `deleted = false`, and returns `r.Close()`
(outcome `closeRes`). The reader close is the last call of the success
path only. Output: (returned error, entity after, boundary calls made). -/
def RFile.Write (f : RFile) (deleteRes : Option String)
    (uploadRes : Except String Handle) (closeRes : Option String) :
    Option String × RFile × List WEff :=
  if f.IsDir then (some "Can't write a directory with this method", f, [])
  else
    match f.«exists», deleteRes with
    | true, some e => (some e, f, [WEff.effDelete])
    | true, none =>
      match uploadRes with
      | .error e => (some e, f, [WEff.effDelete, WEff.effUpload])
      | .ok newFile =>
        (closeRes,
         { f with file := some newFile, «exists» := true, deleted := false },
         [WEff.effDelete, WEff.effUpload, WEff.effClose])
    | false, _ =>
      match uploadRes with
      | .error e => (some e, f, [WEff.effUpload])
      | .ok newFile =>
        (closeRes,
         { f with file := some newFile, «exists» := true, deleted := false },
         [WEff.effUpload, WEff.effClose])

/-- `File.Rename()`: error when not existing or a directory; else the new
name is the handle's URL with the extension stripped, the `time.Stamp`
rendering of the call time appended, and the extension re-appended; then
the remote move (outcome `moveRes`; on success the handle's URL is
refreshed to the target, see `Handle.setUrl`). Output: (returned error,
entity after). -/
def RFile.Rename (f : RFile) (now : GoTime) (moveRes : Option String) :
    Option String × RFile :=
  if !f.Exists then (some "Can't Rename / Move a file which doesn't exist!", f)
  else if f.IsDir then (some "Can't call rename on a directory", f)
  else
    match f.file with
    | none => (some "Can't Rename / Move a file which doesn't exist!", f)
    | some h =>
      let ext := filepathExt h.url
      let newName := trimSuffix h.url ext ++ stampFmt now ++ ext
      match moveRes with
      | some e => (some e, f)
      | none => (none, { f with file := some (h.setUrl newName) })

mutual
/-- Specification of the teardown performed by `stopHandle`: the sequence
of (directory) entity ids removed from the registry, in removal order,
paired with the error, if any, that cuts the teardown short. -/
def traceH : Handle → List String × Option String
  | .mk _ _ fu _ _ _ cr cs =>
    match cr with
    | some e => ([], some e)
    | none =>
      match traceL cs with
      | (ids, some e) => (ids, some e)
      | (ids, none) => (ids ++ [fu], none)

/-- Removal trace of the loop over a child list. -/
def traceL : List Handle → List String × Option String
  | [] => ([], none)
  | c :: cs =>
    if c.isDir then
      match traceH c with
      | (ids, some e) => (ids, some e)
      | (ids, none) =>
        match traceL cs with
        | (ids2, r) => (ids ++ ids2, r)
    else traceL cs
end

/-- Sequential registry removal of a list of entity ids for one profile. -/
def removeAll (reg : Reg) (p : ProfileId) (ids : List String) : Reg :=
  ids.foldl (fun r i => removeW r p i) reg

mutual
/-- The ids of all directory nodes of a handle tree in post-order
(children before the parent), the order in which a fully successful
teardown removes them; the receiver itself is last. -/
def postDirs : Handle → List String
  | .mk _ _ fu _ _ _ _ cs => postDirsList cs ++ [fu]

/-- Post-order directory ids of a child list (non-directories contribute
nothing and are not descended into). -/
def postDirsList : List Handle → List String
  | [] => []
  | c :: cs => (if c.isDir then postDirs c else []) ++ postDirsList cs
end

mutual
/-- Every child enumeration on the directory spine of the tree
succeeds — "every boundary call succeeds" for a teardown. -/
def allOk : Handle → Bool
  | .mk _ _ _ _ _ _ cr cs => cr == none && allOkList cs

def allOkList : List Handle → Bool
  | [] => true
  | c :: cs => (!c.isDir || allOk c) && allOkList cs
end

/-- A watched leaf directory (no children, enumeration succeeds), with
all three identifier fields equal to `id`. -/
def leafDir (id : String) : Handle :=
  .mk id id id 0 true timeZero none []

/-- A directory whose child enumeration fails with `err`. -/
def failDir (id err : String) : Handle :=
  .mk id id id 0 true timeZero (some err) []

/-- The scenario of C2's failure clause: a watched directory `r` whose
watched descendant directories are `pre ++ [bad] ++ post` in enumeration
(= teardown) order, where the K-th one (`bad`, K = `pre.length + 1`) has
a failing child enumeration. -/
def starHandle (r : String) (pre : List String) (bad err : String)
    (post : List String) : Handle :=
  .mk r r r 0 true timeZero none
    (pre.map leafDir ++ failDir bad err :: post.map leafDir)

/-- A wall-clock time: field values in the ranges a Go `time.Time`
produces. -/
def ValidTime (t : GoTime) : Prop :=
  1 ≤ t.month ∧ t.month ≤ 12 ∧ 1 ≤ t.day ∧ t.day ≤ 31 ∧
    t.hour ≤ 23 ∧ t.min ≤ 59 ∧ t.sec ≤ 59

instance (t : GoTime) : Decidable (ValidTime t) := by
  unfold ValidTime; infer_instance

/-- The URL of the attached remote handle ("" when none is attached):
after a successful move this is the move's target name. -/
def attachedURL (f : RFile) : String :=
  match f.file with
  | some h => h.url
  | none => ""

theorem mem_removeW {reg : Reg} {p : ProfileId} {id : String} {e : ProfileId × String} :
    e ∈ removeW reg p id ↔ e ∈ reg ∧ e ≠ (p, id) := by
  simp [removeW, List.mem_filter]

theorem hasW_iff {reg : Reg} {p : ProfileId} {id : String} :
    hasW reg p id = true ↔ (p, id) ∈ reg := by
  simp [hasW, List.contains, List.elem_iff]

theorem mem_removeAll {p : ProfileId} {ids : List String} {e : ProfileId × String} :
    ∀ {reg : Reg}, e ∈ removeAll reg p ids ↔ e ∈ reg ∧ ¬(e.1 = p ∧ e.2 ∈ ids) := by
  induction ids with
  | nil => intro reg; simp [removeAll]
  | cons i ids ih =>
    intro reg
    show e ∈ removeAll (removeW reg p i) p ids ↔ _
    rw [ih, mem_removeW]
    rcases e with ⟨q, d⟩
    simp [Prod.ext_iff]
    tauto

theorem removeAll_append (reg : Reg) (p : ProfileId) (ids ids2 : List String) :
    removeAll reg p (ids ++ ids2) = removeAll (removeAll reg p ids) p ids2 := by
  simp [removeAll, List.foldl_append]

mutual
theorem stopHandle_eq_trace (p : ProfileId) (h : Handle) (reg : Reg) :
    stopHandle p h reg = ((traceH h).2, removeAll reg p (traceH h).1) := by
  match h with
  | .mk n u fu sz d t cr cs =>
    cases cr with
    | some e => simp [stopHandle, traceH, removeAll]
    | none =>
      simp only [stopHandle, traceH]
      rw [stopChildren_eq_trace]
      cases htl : traceL cs with
      | mk ids r =>
        cases r with
        | some e => simp
        | none => simp [removeAll_append, removeAll]

theorem stopChildren_eq_trace (p : ProfileId) (hs : List Handle) (reg : Reg) :
    stopChildren p hs reg = ((traceL hs).2, removeAll reg p (traceL hs).1) := by
  match hs with
  | [] => simp [stopChildren, traceL, removeAll]
  | c :: cs =>
    simp only [stopChildren, traceL]
    by_cases hd : c.isDir
    · simp only [hd, if_true]
      rw [stopHandle_eq_trace]
      cases hth : traceH c with
      | mk ids r =>
        cases r with
        | some e => simp
        | none =>
          dsimp only
          rw [stopChildren_eq_trace]
          cases htl : traceL cs with
          | mk ids2 r2 => simp [removeAll_append]
    · simp only [hd, Bool.false_eq_true, if_false]
      rw [stopChildren_eq_trace]
end

mutual
theorem traceH_ok (h : Handle) (hok : allOk h = true) : traceH h = (postDirs h, none) := by
  match h with
  | .mk n u fu sz d t cr cs =>
    simp only [allOk, Bool.and_eq_true, beq_iff_eq] at hok
    obtain ⟨hcr, hcs⟩ := hok
    subst hcr
    simp only [traceH, postDirs, traceL_ok cs hcs]

theorem traceL_ok (hs : List Handle) (hok : allOkList hs = true) :
    traceL hs = (postDirsList hs, none) := by
  match hs with
  | [] => simp [traceL, postDirsList]
  | c :: cs =>
    simp only [allOkList, Bool.and_eq_true, Bool.or_eq_true, Bool.not_eq_true'] at hok
    obtain ⟨hc, hcs⟩ := hok
    by_cases hd : c.isDir
    · have hcok : allOk c = true := by
        rcases hc with hc | hc
        · rw [hd] at hc; cases hc
        · exact hc
      simp only [traceL, postDirsList, hd, if_true, traceH_ok c hcok, traceL_ok cs hcs]
    · simp only [traceL, postDirsList, hd, Bool.false_eq_true, if_false,
        traceL_ok cs hcs]
      simp
end

theorem traceL_star (pre : List String) (bad err : String) (rest : List Handle) :
    traceL (pre.map leafDir ++ failDir bad err :: rest) = (pre, some err) := by
  induction pre with
  | nil => simp [traceL, failDir, traceH, Handle.isDir]
  | cons l pre ih =>
    simp only [List.map_cons, List.cons_append, traceL, leafDir, Handle.isDir, if_true,
      traceH, traceL, List.append_eq, ih]
    simp

/-- C1: for every `File` value whose exists flag is false (for example the
placeholder returned by `New` when the boundary reports not-found),
`Size()` returns 0, `IsDir()` returns false, and `Modified()` returns the
zero time. -/
theorem c1_nonexistent_entity_defaults (f : RFile) (hne : f.«exists» = false) :
    f.Size = 0 ∧ f.IsDir = false ∧ f.Modified = timeZero := by
  refine ⟨?_, ?_, ?_⟩ <;> simp [RFile.Size, RFile.IsDir, RFile.Modified, hne]

theorem c1_witness :
    (⟨none, "report.csv", "/docs/report.csv", "u/docs/report.csv", timeZero, false, false⟩ :
        RFile).«exists» = false ∧
    ((⟨none, "report.csv", "/docs/report.csv", "u/docs/report.csv", timeZero, false, false⟩ :
        RFile).Size = 0 ∧
     (⟨none, "report.csv", "/docs/report.csv", "u/docs/report.csv", timeZero, false, false⟩ :
        RFile).IsDir = false ∧
     (⟨none, "report.csv", "/docs/report.csv", "u/docs/report.csv", timeZero, false, false⟩ :
        RFile).Modified = timeZero) :=
  ⟨rfl, c1_nonexistent_entity_defaults _ rfl⟩

/-- C3: `StartMonitor` on a non-directory entity fails with the
invalid-operation error and changes nothing; and when the (profile,
directory) pair is already in the watch registry, a second call returns
success without enumerating children (4th output component `false`),
dispatching change events (3rd component `[]`), or changing the
registry. -/
theorem c3_startMonitor_guard_and_idempotence (f : RFile) (p : ProfileId) (reg : Reg) :
    (f.IsDir = false →
      f.StartMonitor p reg = (some "Can't start monitoring a non-directory", reg, [], false)) ∧
    (f.IsDir = true → hasW reg p f.ID = true →
      f.StartMonitor p reg = (none, reg, [], false)) := by
  constructor
  · intro hd; simp [RFile.StartMonitor, hd]
  · intro hd hw; simp [RFile.StartMonitor, hd, hw]

theorem c3_witness :
    ((⟨none, "x", "/x", "u/x", timeZero, false, false⟩ : RFile).StartMonitor
        (some "prof") [] = (some "Can't start monitoring a non-directory", [], [], false)) ∧
    ((newFromFile (Handle.mk "d" "/d" "u/d" 0 true timeZero none [])).StartMonitor
        (some "prof") [(some "prof", "u/d")] =
      (none, [(some "prof", "u/d")], [], false)) :=
  ⟨(c3_startMonitor_guard_and_idempotence _ (some "prof") []).1 rfl,
   (c3_startMonitor_guard_and_idempotence _ (some "prof") _).2 rfl rfl⟩

/-- C4: for every path for which the remote boundary reports not-found,
`New(client, P)` returns the placeholder entity with no error:
`exists = false`, no remote handle attached, name the base name of P,
url = P, fullURL the client root locator with path P. -/
theorem c4_new_notFound_placeholder (c : Client) (path : String)
    (hnf : c.getFile path = GetFileResult.notFound) :
    New (some c) path = .ok (newEmptyFile c path) ∧
    (newEmptyFile c path).«exists» = false ∧
    (newEmptyFile c path).file = none ∧
    (newEmptyFile c path).Name = filepathBase path ∧
    (newEmptyFile c path).URL = path ∧
    (newEmptyFile c path).FullURL = c.rootWithPath path := by
  refine ⟨?_, rfl, rfl, rfl, rfl, rfl⟩
  simp [New, hnf]

theorem c4_witness :
    (Client.mk (fun p => "https://example.com" ++ p)
        (fun _ => GetFileResult.notFound)).getFile "/docs/report.csv" =
      GetFileResult.notFound ∧
    New (some (Client.mk (fun p => "https://example.com" ++ p)
        (fun _ => GetFileResult.notFound))) "/docs/report.csv" =
      .ok (newEmptyFile (Client.mk (fun p => "https://example.com" ++ p)
        (fun _ => GetFileResult.notFound)) "/docs/report.csv") ∧
    (newEmptyFile (Client.mk (fun p => "https://example.com" ++ p)
        (fun _ => GetFileResult.notFound)) "/docs/report.csv").Name = "report.csv" ∧
    (newEmptyFile (Client.mk (fun p => "https://example.com" ++ p)
        (fun _ => GetFileResult.notFound)) "/docs/report.csv").FullURL =
      "https://example.com/docs/report.csv" :=
  ⟨rfl, (c4_new_notFound_placeholder _ _ rfl).1, rfl, rfl⟩

/-- C5: for every existing non-directory entity, if the delete of the old
remote object issued at the start of `Write` fails, `Write` returns that
delete error, the entity value is unchanged (hence so is every in-memory
field), and only the delete boundary call was made. -/
theorem c5_write_delete_error_unchanged (f : RFile) (e : String)
    (u : Except String Handle) (cl : Option String)
    (hex : f.«exists» = true) (hnd : f.IsDir = false) :
    f.Write (some e) u cl = (some e, f, [WEff.effDelete]) := by
  simp [RFile.Write, hnd, hex]

theorem c5_witness :
    (newFromFile (Handle.mk "f.txt" "/docs/f.txt" "u/docs/f.txt" 7 false timeZero none
        [])).Write (some "delete failed")
      (Except.ok (Handle.mk "f.txt" "/docs/f.txt" "u/docs/f.txt" 3 false timeZero none []))
      none =
    (some "delete failed",
     newFromFile (Handle.mk "f.txt" "/docs/f.txt" "u/docs/f.txt" 7 false timeZero none []),
     [WEff.effDelete]) :=
  c5_write_delete_error_unchanged _ _ _ _ rfl rfl

/-- C9: for every directory entity, `Write` fails with the
invalid-operation error, makes no boundary call (empty call list — no
delete, no upload), and does not change the entity. -/
theorem c9_write_directory_rejected (f : RFile) (d : Option String)
    (u : Except String Handle) (cl : Option String) (hdir : f.IsDir = true) :
    f.Write d u cl = (some "Can't write a directory with this method", f, []) := by
  simp [RFile.Write, hdir]

theorem c9_witness :
    (newFromFile (Handle.mk "d" "/d" "u/d" 0 true timeZero none [])).Write none
      (Except.ok (Handle.mk "n" "/n" "u/n" 1 false timeZero none [])) none =
    (some "Can't write a directory with this method",
     newFromFile (Handle.mk "d" "/d" "u/d" 0 true timeZero none []), []) :=
  c9_write_directory_rejected _ _ _ _ rfl

/-- C10: if, during `Write` on an existing non-directory entity, the
delete of the old remote object succeeds but the upload fails, `Write`
returns the upload error and the entity value is unchanged — in
particular `exists` is still true and the old handle is still
attached. -/
theorem c10_write_upload_error_unchanged (f : RFile) (e : String) (cl : Option String)
    (hex : f.«exists» = true) (hnd : f.IsDir = false) :
    f.Write none (.error e) cl = (some e, f, [WEff.effDelete, WEff.effUpload]) ∧
    (f.Write none (.error e) cl).2.1.Exists = true ∧
    (f.Write none (.error e) cl).2.1.file = f.file := by
  have h : f.Write none (.error e) cl = (some e, f, [WEff.effDelete, WEff.effUpload]) := by
    simp [RFile.Write, hnd, hex]
  exact ⟨h, by rw [h]; exact hex, by rw [h]⟩

theorem c10_witness :
    (newFromFile (Handle.mk "f.txt" "/docs/f.txt" "u/docs/f.txt" 7 false timeZero none
        [])).Write none (.error "upload failed") none =
      (some "upload failed",
       newFromFile (Handle.mk "f.txt" "/docs/f.txt" "u/docs/f.txt" 7 false timeZero none []),
       [WEff.effDelete, WEff.effUpload]) ∧
    ((newFromFile (Handle.mk "f.txt" "/docs/f.txt" "u/docs/f.txt" 7 false timeZero none
        [])).Write none (.error "upload failed") none).2.1.«exists» = true :=
  ⟨(c10_write_upload_error_unchanged
      (newFromFile (Handle.mk "f.txt" "/docs/f.txt" "u/docs/f.txt" 7 false timeZero none []))
      "upload failed" none rfl rfl).1, rfl⟩

/-- C8: after `Delete` succeeds on an existing entity (the delete-tracking
store call, the recursive unwatch for directories, and the remote delete
all succeed), the entity's in-memory flags are not mutated: the entity
value is returned unchanged, `Exists()` still returns true and
`Deleted()` still returns false. -/
theorem c8_delete_no_flag_mutation (f : RFile) (reg : Reg)
    (hex : f.«exists» = true) (hdel : f.deleted = false)
    (hstop : f.IsDir = true → (f.stopWatcherRecursive none reg).1 = none) :
    (f.Delete none reg none).1 = none ∧
    (f.Delete none reg none).2.1 = f ∧
    (f.Delete none reg none).2.1.Exists = true ∧
    (f.Delete none reg none).2.1.Deleted = false := by
  obtain ⟨h1, h2⟩ : (f.Delete none reg none).1 = none ∧ (f.Delete none reg none).2.1 = f := by
    by_cases hd : f.IsDir = true
    · rcases hs : f.stopWatcherRecursive none reg with ⟨o, r2⟩
      have ho : o = none := by simpa [hs] using hstop hd
      subst ho
      simp [RFile.Delete, hex, hd, hs]
    · simp [RFile.Delete, hex, hd]
  refine ⟨h1, h2, ?_, ?_⟩ <;> rw [h2] <;> simp [RFile.Exists, RFile.Deleted, hex, hdel]

theorem c8_witness :
    ((newFromFile (Handle.mk "d" "/d" "u/d" 0 true timeZero none [])).Delete none
        [(none, "u/d")] none).1 = none ∧
    ((newFromFile (Handle.mk "d" "/d" "u/d" 0 true timeZero none [])).Delete none
        [(none, "u/d")] none).2.1 =
      newFromFile (Handle.mk "d" "/d" "u/d" 0 true timeZero none []) ∧
    ((newFromFile (Handle.mk "d" "/d" "u/d" 0 true timeZero none [])).Delete none
        [(none, "u/d")] none).2.1.Exists = true ∧
    ((newFromFile (Handle.mk "d" "/d" "u/d" 0 true timeZero none [])).Delete none
        [(none, "u/d")] none).2.1.Deleted = false :=
  c8_delete_no_flag_mutation _ _ rfl rfl (by decide)

theorem newFromFile_IsDir (h : Handle) : (newFromFile h).IsDir = h.isDir := by
  simp [newFromFile, RFile.IsDir]

theorem stopWatcher_live (h : Handle) (p : ProfileId) (reg : Reg) :
    (newFromFile h).stopWatcherRecursive p reg = stopHandle p h reg := by
  match h with
  | .mk n u fu sz d t cr cs =>
    cases cr with
    | some e =>
      simp [RFile.stopWatcherRecursive, RFile.Children, newFromFile, Handle.childrenRes,
        Handle.children, Handle.fullURL, RFile.ID, stopHandle]
    | none =>
      rcases hs : stopChildren p cs reg with ⟨o, r⟩
      cases o <;>
        simp [RFile.stopWatcherRecursive, RFile.Children, newFromFile, Handle.childrenRes,
          Handle.children, Handle.fullURL, RFile.ID, stopHandle, hs]

theorem stopMonitor_watched (h : Handle) (p : ProfileId) (reg : Reg)
    (hdir : h.isDir = true) (hw : hasW reg p h.fullURL = true) :
    (newFromFile h).StopMonitor p reg = ((traceH h).2, removeAll reg p (traceH h).1) := by
  have h1 : (newFromFile h).IsDir = true := by rw [newFromFile_IsDir, hdir]
  have h2 : hasW reg p (newFromFile h).ID = true := hw
  rw [RFile.StopMonitor, h1, h2]
  simp [stopWatcher_live, stopHandle_eq_trace]

/-- C2: teardown of a watched directory tree by `StopMonitor`.

Success clause, for an arbitrary tree: when every child enumeration on
the directory spine succeeds (`allOk`), `StopMonitor` returns no error
and removes exactly the registry entries of the N+1 directories of the
tree (`postDirs h` — the N watched descendant directories in depth-first
post-order, children before the parent, then the entity itself): each of
them is no longer watched afterwards, and every other registry entry is
preserved.

Failure clause, in the scenario the claim indexes (descendants
`pre ++ [bad] ++ post` in teardown order, with the K-th one `bad`,
K = `pre.length + 1`, failing its child enumeration): `StopMonitor`
returns the enumeration error, exactly the first K-1 descendants (`pre`)
have been unregistered, and the entity itself (`r`), the failing
descendant (`bad`) and the remaining descendants (`post`) are still
registered. -/
theorem c2_stopMonitor_teardown :
    (∀ (h : Handle) (p : ProfileId) (reg : Reg),
      h.isDir = true →
      hasW reg p h.fullURL = true →
      allOk h = true →
      (newFromFile h).StopMonitor p reg = (none, removeAll reg p (postDirs h)) ∧
      (∀ d ∈ postDirs h, hasW (removeAll reg p (postDirs h)) p d = false) ∧
      (∀ e ∈ reg, (e.1 ≠ p ∨ e.2 ∉ postDirs h) → e ∈ removeAll reg p (postDirs h))) ∧
    (∀ (r : String) (pre : List String) (bad err : String) (post : List String)
       (p : ProfileId) (reg : Reg),
      hasW reg p r = true →
      r ∉ pre → bad ∉ pre →
      (newFromFile (starHandle r pre bad err post)).StopMonitor p reg
          = (some err, removeAll reg p pre) ∧
      (∀ l ∈ pre, hasW (removeAll reg p pre) p l = false) ∧
      (p, r) ∈ removeAll reg p pre ∧
      ((p, bad) ∈ reg → (p, bad) ∈ removeAll reg p pre) ∧
      (∀ l ∈ post, l ∉ pre → (p, l) ∈ reg → (p, l) ∈ removeAll reg p pre)) := by
  constructor
  · intro h p reg hdir hw hok
    have ht : traceH h = (postDirs h, none) := traceH_ok h hok
    refine ⟨?_, ?_, ?_⟩
    · rw [stopMonitor_watched h p reg hdir hw, ht]
    · intro d hd
      have : ¬ (hasW (removeAll reg p (postDirs h)) p d = true) := by
        rw [hasW_iff, mem_removeAll]
        rintro ⟨-, hno⟩
        exact hno ⟨rfl, hd⟩
      simpa using this
    · intro e he hcond
      rw [mem_removeAll]
      refine ⟨he, ?_⟩
      rintro ⟨h1, h2⟩
      rcases hcond with hq | hq
      · exact hq h1
      · exact hq h2
  · intro r pre bad err post p reg hw hr hb
    have hdir : (starHandle r pre bad err post).isDir = true := rfl
    have hfu : (starHandle r pre bad err post).fullURL = r := rfl
    have ht : traceH (starHandle r pre bad err post) = (pre, some err) := by
      rw [starHandle, traceH]
      simp [traceL_star]
    refine ⟨?_, ?_, ?_, ?_, ?_⟩
    · rw [stopMonitor_watched _ p reg hdir (by rw [hfu]; exact hw), ht]
    · intro l hl
      have : ¬ (hasW (removeAll reg p pre) p l = true) := by
        rw [hasW_iff, mem_removeAll]
        rintro ⟨-, hno⟩
        exact hno ⟨rfl, hl⟩
      simpa using this
    · rw [mem_removeAll]
      exact ⟨hasW_iff.mp hw, by rintro ⟨-, hc⟩; exact hr hc⟩
    · intro hin
      rw [mem_removeAll]
      exact ⟨hin, by rintro ⟨-, hc⟩; exact hb hc⟩
    · intro l _ hlp hin
      rw [mem_removeAll]
      exact ⟨hin, by rintro ⟨-, hc⟩; exact hlp hc⟩

theorem c2_witness :
    ((newFromFile (Handle.mk "root" "root" "root" 0 true timeZero none
        [leafDir "a", leafDir "b"])).StopMonitor (some "prof")
        [(some "prof", "root"), (some "prof", "a"), (some "prof", "b")] =
      (none,
       removeAll [(some "prof", "root"), (some "prof", "a"), (some "prof", "b")]
         (some "prof")
         (postDirs (Handle.mk "root" "root" "root" 0 true timeZero none
            [leafDir "a", leafDir "b"])))) ∧
    ((newFromFile (starHandle "r" ["a"] "bad" "boom" ["c"])).StopMonitor (some "prof")
        [(some "prof", "r"), (some "prof", "a"), (some "prof", "bad"), (some "prof", "c")] =
      (some "boom",
       removeAll [(some "prof", "r"), (some "prof", "a"), (some "prof", "bad"),
         (some "prof", "c")] (some "prof") ["a"])) :=
  ⟨(c2_stopMonitor_teardown.1 (Handle.mk "root" "root" "root" 0 true timeZero none
      [leafDir "a", leafDir "b"]) (some "prof")
      [(some "prof", "root"), (some "prof", "a"), (some "prof", "b")] rfl rfl rfl).1,
   (c2_stopMonitor_teardown.2 "r" ["a"] "bad" "boom" ["c"] (some "prof")
      [(some "prof", "r"), (some "prof", "a"), (some "prof", "bad"), (some "prof", "c")]
      rfl (by decide) (by decide)).1⟩

/-- C6 is refuted at a concrete input: on the exit path where `Write`
returns early because the entity is a directory, the input reader's
`Close` has not been invoked by the time `Write` returns (the call list
does not contain the close call — in the Go body `r.Close()` is only the
final statement of the success path). -/
theorem c6_counterexample :
    WEff.effClose ∉
      ((newFromFile (Handle.mk "d" "/d" "u/d" 0 true timeZero none [])).Write
        none (Except.ok (Handle.mk "n" "/n" "u/n" 1 false timeZero none []))
        none).2.2 := by
  decide

/-- C6 amended: `Write` invokes the input reader's `Close` exactly on the
successful-upload exit path — that is, precisely when the entity is not a
directory, the delete of the old remote object (issued only for an
existing entity) succeeds, and the upload succeeds. On the
directory-error, delete-failure and upload-failure exit paths the reader
is not closed. -/
theorem c6_close_only_on_success (f : RFile) (d : Option String)
    (u : Except String Handle) (cl : Option String) :
    WEff.effClose ∈ (f.Write d u cl).2.2 ↔
      f.IsDir = false ∧ (f.«exists» = true → d = none) ∧ ∃ nh, u = Except.ok nh := by
  by_cases hdir : f.IsDir = true
  · simp [RFile.Write, hdir]
  · have hd : f.IsDir = false := by simpa using hdir
    cases hex : f.«exists» <;> cases d <;> cases u <;>
      simp [RFile.Write, hd, hex]

theorem c6_witness :
    WEff.effClose ∈
      ((newFromFile (Handle.mk "f.txt" "/docs/f.txt" "u/docs/f.txt" 7 false timeZero none
          [])).Write none
        (Except.ok (Handle.mk "f.txt" "/docs/f.txt" "u/docs/f.txt" 3 false timeZero none []))
        none).2.2 :=
  (c6_close_only_on_success
      (newFromFile (Handle.mk "f.txt" "/docs/f.txt" "u/docs/f.txt" 7 false timeZero none []))
      none
      (Except.ok (Handle.mk "f.txt" "/docs/f.txt" "u/docs/f.txt" 3 false timeZero none []))
      none).mpr
    ⟨rfl, fun _ => rfl, _, rfl⟩

theorem url_setUrl (h : Handle) (u : String) : (h.setUrl u).url = u := by
  cases h; rfl

theorem isDir_setUrl (h : Handle) (u : String) : (h.setUrl u).isDir = h.isDir := by
  cases h; rfl

theorem filepathExt_csv (s : String) : filepathExt (s ++ ".csv") = ".csv" := by
  have hd : (s ++ ".csv").data = s.data ++ ['.', 'c', 's', 'v'] := by
    rw [String.data_append]
  rw [filepathExt, hd, List.reverse_append]
  show extLoop (['v', 's', 'c', '.'] ++ s.data.reverse) [] = ".csv"
  simp [extLoop]

theorem trimSuffix_append (a b : String) : trimSuffix (a ++ b) b = a := by
  have hsuf : b.data.isSuffixOf (a ++ b).data = true := by
    rw [String.data_append, List.isSuffixOf_iff_suffix]
    exact ⟨a.data, rfl⟩
  rw [trimSuffix, if_pos hsuf, String.data_append, List.length_append]
  have harith : a.data.length + b.data.length - b.data.length = a.data.length := by omega
  rw [harith, List.take_left]

theorem stampFmt_length_pos (t : GoTime) : 0 < (stampFmt t).length := by
  have h1 : (" " : String).length = 1 := rfl
  rw [stampFmt, String.length_append, String.length_append, String.length_append,
    String.length_append, String.length_append, String.length_append,
    String.length_append, String.length_append, h1]
  omega

theorem monthAbbrev_length (m : Nat) (h1 : 1 ≤ m) (h2 : m ≤ 12) :
    (monthAbbrev m).length = 3 := by
  interval_cases m <;> rfl

theorem padSpace2_length (n : Nat) (h : n ≤ 31) : (padSpace2 n).length = 2 := by
  interval_cases n <;> rfl

theorem padZero2_length (n : Nat) (h : n ≤ 59) : (padZero2 n).length = 2 := by
  interval_cases n <;> rfl

theorem stampFmt_length_valid (t : GoTime) (hv : ValidTime t) :
    (stampFmt t).length = 15 := by
  obtain ⟨hm1, hm2, _, hd2, hh, hmin, hs⟩ := hv
  have h1 : (" " : String).length = 1 := rfl
  have h2 : (":" : String).length = 1 := rfl
  rw [stampFmt, String.length_append, String.length_append, String.length_append,
    String.length_append, String.length_append, String.length_append,
    String.length_append, String.length_append, h1, h2,
    monthAbbrev_length t.month hm1 hm2, padSpace2_length t.day hd2,
    padZero2_length t.hour (by omega), padZero2_length t.min (by omega),
    padZero2_length t.sec (by omega)]

theorem rename_success_step (f : RFile) (h : Handle) (t : GoTime)
    (hfile : f.file = some h) (hex : f.«exists» = true) (hnd : h.isDir = false) :
    f.Rename t none =
      (none,
       { f with file := some (h.setUrl
           (trimSuffix h.url (filepathExt h.url) ++ stampFmt t ++ filepathExt h.url)) }) := by
  have hDir : f.IsDir = false := by simp [RFile.IsDir, hex, hfile, hnd]
  simp [RFile.Rename, RFile.Exists, hex, hDir, hfile]

/-- C7 amended: two successive `Rename` calls on the same existing file
named report.csv within the same wall-clock second both succeed and
produce two distinct target names, but the second target is not the first
with its timestamp substituted: because the boundary's move refreshes the
handle's URL and the same-second `time.Stamp` rendering is identical, the
first target is report`S`.csv and the second is report`S``S`.csv (the
timestamp segment `S` embedded twice). -/
theorem c7_rename_same_second_targets (f : RFile) (h : Handle) (t : GoTime)
    (hfile : f.file = some h) (hurl : h.url = "report.csv")
    (hex : f.«exists» = true) (hnd : h.isDir = false) :
    (f.Rename t none).1 = none ∧
    attachedURL (f.Rename t none).2 = "report" ++ stampFmt t ++ ".csv" ∧
    ((f.Rename t none).2.Rename t none).1 = none ∧
    attachedURL ((f.Rename t none).2.Rename t none).2
      = "report" ++ stampFmt t ++ stampFmt t ++ ".csv" ∧
    attachedURL (f.Rename t none).2 ≠ attachedURL ((f.Rename t none).2.Rename t none).2 := by
  have hext1 : filepathExt h.url = ".csv" := by rw [hurl]; rfl
  have htrim1 : trimSuffix h.url (filepathExt h.url) = "report" := by rw [hurl]; rfl
  have step1 := rename_success_step f h t hfile hex hnd
  rw [hext1] at htrim1
  rw [hext1, htrim1] at step1
  have hnd2 : (h.setUrl ("report" ++ stampFmt t ++ ".csv")).isDir = false := by
    rw [isDir_setUrl]; exact hnd
  have hext2 : filepathExt (h.setUrl ("report" ++ stampFmt t ++ ".csv")).url = ".csv" := by
    rw [url_setUrl]; exact filepathExt_csv ("report" ++ stampFmt t)
  have htrim2 : trimSuffix (h.setUrl ("report" ++ stampFmt t ++ ".csv")).url ".csv"
      = "report" ++ stampFmt t := by
    rw [url_setUrl]
    exact trimSuffix_append ("report" ++ stampFmt t) ".csv"
  have step2 := rename_success_step
    { f with file := some (h.setUrl ("report" ++ stampFmt t ++ ".csv")) }
    (h.setUrl ("report" ++ stampFmt t ++ ".csv")) t rfl hex hnd2
  rw [hext2, htrim2] at step2
  have hne : ("report" ++ stampFmt t ++ ".csv" : String)
      ≠ "report" ++ stampFmt t ++ stampFmt t ++ ".csv" := by
    intro heq
    have hlen := congrArg String.length heq
    rw [String.length_append, String.length_append, String.length_append,
      String.length_append, String.length_append] at hlen
    have e2 : ("report" : String).length = 6 := rfl
    have e3 : (".csv" : String).length = 4 := rfl
    rw [e2, e3] at hlen
    have := stampFmt_length_pos t
    omega
  refine ⟨?_, ?_, ?_, ?_, ?_⟩
  · rw [step1]
  · rw [step1]
    simp [attachedURL, url_setUrl]
  · rw [step1]
    dsimp only
    rw [step2]
  · rw [step1]
    dsimp only
    rw [step2]
    simp [attachedURL, url_setUrl]
  · rw [step1]
    dsimp only
    rw [step2]
    simpa [attachedURL, url_setUrl] using hne

/-- C7 is refuted at a concrete input: at the wall-clock second
Jan 2 15:04:05, the two successive `Rename` calls on an existing
report.csv do not produce target names "differing only at timestamp
granularity" — the second target is not of the form
report`<timestamp>`.csv for any wall-clock timestamp (its timestamp
segment has twice the length a single `time.Stamp` rendering can have),
so the claimed conjunction fails. -/
theorem c7_counterexample :
    ¬ (attachedURL ((newFromFile (Handle.mk "report.csv" "report.csv" "u/report.csv" 10
            false timeZero none [])).Rename ⟨1, 2, 15, 4, 5⟩ none).2 ≠
        attachedURL (((newFromFile (Handle.mk "report.csv" "report.csv" "u/report.csv" 10
            false timeZero none [])).Rename ⟨1, 2, 15, 4, 5⟩
            none).2.Rename ⟨1, 2, 15, 4, 5⟩ none).2 ∧
       ∃ t1 t2 : GoTime, ValidTime t1 ∧ ValidTime t2 ∧
        attachedURL ((newFromFile (Handle.mk "report.csv" "report.csv" "u/report.csv" 10
            false timeZero none [])).Rename ⟨1, 2, 15, 4, 5⟩ none).2
          = "report" ++ stampFmt t1 ++ ".csv" ∧
        attachedURL (((newFromFile (Handle.mk "report.csv" "report.csv" "u/report.csv" 10
            false timeZero none [])).Rename ⟨1, 2, 15, 4, 5⟩
            none).2.Rename ⟨1, 2, 15, 4, 5⟩ none).2
          = "report" ++ stampFmt t2 ++ ".csv") := by
  rintro ⟨-, t1, t2, -, hv2, -, h2⟩
  have hconc : attachedURL (((newFromFile (Handle.mk "report.csv" "report.csv"
      "u/report.csv" 10 false timeZero none [])).Rename ⟨1, 2, 15, 4, 5⟩
      none).2.Rename ⟨1, 2, 15, 4, 5⟩ none).2
      = "reportJan  2 15:04:05Jan  2 15:04:05.csv" := rfl
  rw [hconc] at h2
  have hlen := congrArg String.length h2
  rw [String.length_append, String.length_append, stampFmt_length_valid t2 hv2] at hlen
  have e1 : ("reportJan  2 15:04:05Jan  2 15:04:05.csv" : String).length = 40 := rfl
  have e2 : ("report" : String).length = 6 := rfl
  have e3 : (".csv" : String).length = 4 := rfl
  rw [e1, e2, e3] at hlen
  omega

theorem c7_witness :
    attachedURL ((newFromFile (Handle.mk "report.csv" "report.csv" "u/report.csv" 10
        false timeZero none [])).Rename ⟨1, 2, 15, 4, 5⟩ none).2
      = "report" ++ stampFmt ⟨1, 2, 15, 4, 5⟩ ++ ".csv" ∧
    attachedURL (((newFromFile (Handle.mk "report.csv" "report.csv" "u/report.csv" 10
        false timeZero none [])).Rename ⟨1, 2, 15, 4, 5⟩
        none).2.Rename ⟨1, 2, 15, 4, 5⟩ none).2
      = "report" ++ stampFmt ⟨1, 2, 15, 4, 5⟩ ++ stampFmt ⟨1, 2, 15, 4, 5⟩ ++ ".csv" ∧
    attachedURL ((newFromFile (Handle.mk "report.csv" "report.csv" "u/report.csv" 10
        false timeZero none [])).Rename ⟨1, 2, 15, 4, 5⟩ none).2
      ≠ attachedURL (((newFromFile (Handle.mk "report.csv" "report.csv" "u/report.csv" 10
        false timeZero none [])).Rename ⟨1, 2, 15, 4, 5⟩
        none).2.Rename ⟨1, 2, 15, 4, 5⟩ none).2 :=
  ⟨(c7_rename_same_second_targets
      (newFromFile (Handle.mk "report.csv" "report.csv" "u/report.csv" 10 false timeZero
        none []))
      (Handle.mk "report.csv" "report.csv" "u/report.csv" 10 false timeZero none [])
      ⟨1, 2, 15, 4, 5⟩ rfl rfl rfl rfl).2.1,
   (c7_rename_same_second_targets
      (newFromFile (Handle.mk "report.csv" "report.csv" "u/report.csv" 10 false timeZero
        none []))
      (Handle.mk "report.csv" "report.csv" "u/report.csv" 10 false timeZero none [])
      ⟨1, 2, 15, 4, 5⟩ rfl rfl rfl rfl).2.2.2.1,
   (c7_rename_same_second_targets
      (newFromFile (Handle.mk "report.csv" "report.csv" "u/report.csv" 10 false timeZero
        none []))
      (Handle.mk "report.csv" "report.csv" "u/report.csv" 10 false timeZero none [])
      ⟨1, 2, 15, 4, 5⟩ rfl rfl rfl rfl).2.2.2.2⟩
